import Mathlib

/-!
Verification of `MultipleTrueFalseMemoryNetworkSolver`
(`deep_qa/solvers/with_memory/multiple_true_false_memory_network.py`).

The file shallowly embeds the solver's shape bookkeeping, the
time-distributed layer wrapping, and `_handle_debug_output` (with the
report file modeled as an explicit state of written lines plus an
opened/closed flag), and proves the specified properties about them.
-/

namespace MTFMN

/-- A Python `dict` from string keys to integer values, modeled as an
association list with unique keys assumed by lookup-first semantics. -/
def Dict := List (String × Nat)

/-- `d[key]` lookup: first binding wins (Python dict keys are unique). -/
def Dict.lookup (d : Dict) (key : String) : Option Nat :=
  match d with
  | [] => none
  | (k, v) :: rest => if k = key then some v else Dict.lookup rest key

/-- The solver's mutable shape fields.  All three start as Python `None`
(`self.num_options = None` in `__init__`; the other two are inherited
fields, also unset before data loading), hence `Option Nat`. -/
structure SolverShapes where
  max_sentence_length : Option Nat
  max_knowledge_length : Option Nat
  num_options : Option Nat
deriving DecidableEq, Repr

/-- Errors surfaced by the embedded operations.  `keyError` models a
Python `KeyError`, `indexError` an `IndexError`, `typeError` a
`TypeError`, and the two assertion messages of `_handle_debug_output`
are modeled as distinct error values. -/
inductive PyError where
  | keyError
  | indexError
  | typeError
  | missingSoftmax
  | missingAttention
deriving DecidableEq, Repr

/-- `_get_max_lengths`: returns the dict
`{word_sequence_length, background_sentences, num_options}` built from
the three shape fields (which may still be `None`). -/
def getMaxLengths (s : SolverShapes) : List (String × Option Nat) :=
  [("word_sequence_length", s.max_sentence_length),
   ("background_sentences", s.max_knowledge_length),
   ("num_options", s.num_options)]

/-- `_set_max_lengths`: three sequential assignments, each reading a key
from the dict.  A missing key raises `KeyError` at its own statement, so
assignments made by earlier statements persist (Python has no rollback).
Returns the state as updated so far together with the error, if any. -/
def setMaxLengths (s : SolverShapes) (maxLengths : Dict) :
    SolverShapes × Option PyError :=
  match maxLengths.lookup "word_sequence_length" with
  | none => (s, some .keyError)
  | some w =>
    let s := { s with max_sentence_length := some w }
    match maxLengths.lookup "background_sentences" with
    | none => (s, some .keyError)
    | some b =>
      let s := { s with max_knowledge_length := some b }
      match maxLengths.lookup "num_options" with
      | none => (s, some .keyError)
      | some n => ({ s with num_options := some n }, none)

/-- `_set_max_lengths_from_model`: reads
`self.model.get_input_shape_at(0)`, a list of per-input shape tuples
(batch axis included), and assigns
`max_sentence_length := shapes[0][2]`,
`max_knowledge_length := shapes[1][2]`,
`num_options := shapes[0][1]`, in that order; a position that does not
exist raises `IndexError` at its own statement. -/
def setMaxLengthsFromModel (s : SolverShapes) (shapes : List (List Nat)) :
    SolverShapes × Option PyError :=
  match shapes[0]? >>= fun t => t[2]? with
  | none => (s, some .indexError)
  | some sent =>
    let s := { s with max_sentence_length := some sent }
    match shapes[1]? >>= fun t => t[2]? with
    | none => (s, some .indexError)
    | some know =>
      let s := { s with max_knowledge_length := some know }
      match shapes[0]? >>= fun t => t[1]? with
      | none => (s, some .indexError)
      | some opts => ({ s with num_options := some opts }, none)

/-- `_get_question_shape`: `(num_options, max_sentence_length)`. -/
def getQuestionShape (s : SolverShapes) : List (Option Nat) :=
  [s.num_options, s.max_sentence_length]

/-- `_get_background_shape`:
`(num_options, max_knowledge_length, max_sentence_length)`. -/
def getBackgroundShape (s : SolverShapes) : List (Option Nat) :=
  [s.num_options, s.max_knowledge_length, s.max_sentence_length]

/-- `_get_knowledge_axis`: returns the constant `2` regardless of state. -/
def getKnowledgeAxis (_ : SolverShapes) : Nat := 2

/-- Modelled from the spec: the base single-instance
`MemoryNetworkSolver._get_knowledge_axis` is not under `src/`; per the
spec the background knowledge is attended over axis 1 in the
single-instance setting. -/
def baseKnowledgeAxis : Nat := 1

/-- A Keras layer, abstracted to what the wrapping code manipulates: a
base layer with a name, or a `TimeDistributed` wrapper around an inner
layer carrying its own name. -/
inductive Layer where
  | base (name : String)
  | timeDist (inner : Layer) (name : String)
deriving DecidableEq, Repr

/-- `layer.name`. -/
def Layer.name : Layer → String
  | .base n => n
  | .timeDist _ n => n

/-- `TimeDistributed(layer, name=...)`: wraps the layer, introducing no
parameters of its own; the inner layer (and its weights) is shared. -/
def TimeDistributed (l : Layer) (nm : String) : Layer := .timeDist l nm

/-- `_get_sentence_encoder`: wraps the superclass encoder in
`TimeDistributed`, named `"timedist_%s" % base.name`. -/
def getSentenceEncoder (base_sentence_encoder : Layer) : Layer :=
  TimeDistributed base_sentence_encoder
    ("timedist_" ++ base_sentence_encoder.name)

/-- `_get_knowledge_selector(layer_num)`: wraps the superclass selector
for that hop in `TimeDistributed`, named `"timedist_%s" % base.name`. -/
def getKnowledgeSelector (_layer_num : Nat) (base_selector : Layer) : Layer :=
  TimeDistributed base_selector ("timedist_" ++ base_selector.name)

/-- `_get_knowledge_combiner(layer_num)`: wraps the superclass combiner
for that hop in `TimeDistributed`, named `"timedist_%s" % base.name`. -/
def getKnowledgeCombiner (_layer_num : Nat) (base_combiner : Layer) : Layer :=
  TimeDistributed base_combiner ("timedist_" ++ base_combiner.name)

/-- `_get_memory_updater(layer_num)`: wraps the superclass updater for
that hop in `TimeDistributed`, named `"timedist_%s" % base.name`. -/
def getMemoryUpdater (_layer_num : Nat) (base_memory_updater : Layer) : Layer :=
  TimeDistributed base_memory_updater ("timedist_" ++ base_memory_updater.name)

/-- `_get_entailment_input_combiner`: wraps the superclass combiner in
`TimeDistributed`, named `"timedist_%s" % base.name`. -/
def getEntailmentInputCombiner (base_combiner : Layer) : Layer :=
  TimeDistributed base_combiner ("timedist_" ++ base_combiner.name)

/-- A dynamically typed numeric array value, as passed around in
`outputs`: either a scalar or a nested array.  Machine floats are
modeled as rationals. -/
inductive Tensor where
  | scalar (v : Rat)
  | arr (elems : List Tensor)

/-- `t[i]`: indexing requires an array and an in-range index. -/
def Tensor.ix? : Tensor → Nat → Option Tensor
  | .scalar _, _ => none
  | .arr xs, i => xs[i]?

/-- Using `t` as a number (e.g. under `"%.4f" %`). -/
def Tensor.asRat? : Tensor → Option Rat
  | .scalar v => some v
  | .arr _ => none

/-- Using `t` as a sequence (e.g. slicing it). -/
def Tensor.asArr? : Tensor → Option (List Tensor)
  | .scalar _ => none
  | .arr xs => some xs

/-- Python `xs[-n:]`: for `n = 0` this is `xs[0:]`, i.e. all of `xs`;
for `n > 0` it is the trailing `min n xs.length` elements. -/
def pySliceFromNeg (n : Nat) (xs : List α) : List α :=
  if n = 0 then xs else xs.drop (xs.length - n)

/-- Python `s.endswith(post)`: the pattern's characters, reversed, are
an initial segment of the string's characters, reversed. -/
def strEndsWith (s post : String) : Bool :=
  post.data.reverse.isPrefixOf s.data.reverse

/-- Occurrence of `pat` at some position of `l`. -/
def subListAt : List Char → List Char → Bool
  | pat, [] => pat.isEmpty
  | pat, c :: rest => pat.isPrefixOf (c :: rest) || subListAt pat rest

/-- Python `pat in s`. -/
def strContains (s pat : String) : Bool := subListAt pat.data s.data

/-- One answer option of a grouped question, flattening
`option_instance.instance.text` and `option_instance.background`. -/
structure OptionInstance where
  text : String
  background : List String
deriving DecidableEq, Repr

/-- One grouped multiple-choice question instance: the index of the
correct option (`instance.label`) and its options. -/
structure QuestionInstance where
  label : Nat
  options : List OptionInstance
deriving DecidableEq, Repr

/-- Python `"%.4f" % x`, modeled on rationals: round `|x|` to four
decimal places (half up) and print it with exactly four digits after
the point, with a leading minus sign for negative values.  Written on
the numerator and denominator directly:
`(2*|num|*10000 + den) / (2*den) = ⌊|x|*10000 + 1/2⌋`. -/
def formatFixed4 (q : Rat) : String :=
  let sign := if q < 0 then "-" else ""
  let scaled : Nat := (2 * q.num.natAbs * 10000 + q.den) / (2 * q.den)
  let whole := scaled / 10000
  let frac := scaled % 10000
  let fracStr := toString frac
  let padded := String.mk (List.replicate (4 - fracStr.length) '0') ++ fracStr
  sign ++ toString whole ++ "." ++ padded

/-- The `for i, layer_name in enumerate(layer_names)` scan of
`_handle_debug_output` (lines 118-124): an `if`/`elif` chain that stores
`outputs[i]` as the question scores when the name ends with
`"softmax"`, appends it to the attention outputs when the name contains
`"knowledge_selector"`, and stores it as the entailment scores when the
name equals `"entailment_scorer"`.  `outputs[i]` is only evaluated
inside a taken branch; later assignments overwrite earlier ones. -/
def scanLayers (outputs : List Tensor) :
    List String → Nat → Option Tensor × List Tensor × Option Tensor →
    Except PyError (Option Tensor × List Tensor × Option Tensor)
  | [], _, acc => .ok acc
  | name :: rest, i, (scores, attn, ent) =>
    if strEndsWith name "softmax" then
      match outputs[i]? with
      | none => .error .indexError
      | some t => scanLayers outputs rest (i + 1) (some t, attn, ent)
    else if strContains name "knowledge_selector" then
      match outputs[i]? with
      | none => .error .indexError
      | some t => scanLayers outputs rest (i + 1) (scores, attn ++ [t], ent)
    else if name = "entailment_scorer" then
      match outputs[i]? with
      | none => .error .indexError
      | some t => scanLayers outputs rest (i + 1) (scores, attn, some t)
    else scanLayers outputs rest (i + 1) (scores, attn, ent)

/-- The list comprehension `[a[i] for a in ...]` used at lines 130 and
140-141: index every element at `i`, failing at the first element that
is not an array with an in-range position `i`. -/
def ixEach : List Tensor → Nat → Option (List Tensor)
  | [], _ => some []
  | t :: rest, i =>
    match t.ix? i with
    | none => none
    | some u =>
      match ixEach rest i with
      | none => none
      | some us => some (u :: us)

/-- Viewing each element of a list of tensors as a sequence, as the
slicing comprehension at lines 142-143 requires. -/
def asArrEach : List Tensor → Option (List (List Tensor))
  | [] => some []
  | t :: rest =>
    match t.asArr? with
    | none => none
    | some xs =>
      match asArrEach rest with
      | none => none
      | some xss => some (xs :: xss)

/-- The list comprehension
`["%.4f" % values[i] for values in option_attention_values]`
(line 155): one formatted cell per hop, each read at position `i`,
failing at the first hop whose value is missing or not a number. -/
def hopCells : List (List Tensor) → Nat → Except PyError (List String)
  | [], _ => .ok []
  | values :: rest, i =>
    match values[i]? with
    | none => .error .indexError
    | some t =>
      match t.asRat? with
      | none => .error .typeError
      | some r =>
        match hopCells rest i with
        | .error e => .error e
        | .ok cells => .ok (formatFixed4 r :: cells)

/-- The `for i, background_i in enumerate(option_background_info)` loop
(lines 150-157): emit one row per background sentence, breaking as soon
as `i >= len(option_attention_values[0])`.  Returns the lines written
before any error, and the error if one occurred. -/
def weightRows (sliced : List (List Tensor)) :
    List String → Nat → List String × Option PyError
  | [], _ => ([], none)
  | bgSentence :: rest, i =>
    match sliced[0]? with
    | none => ([], some .indexError)
    | some firstHop =>
      if i ≥ firstHop.length then ([], none)
      else
        match hopCells sliced i with
        | .error e => ([], some e)
        | .ok cells =>
          let row := "\t\t" ++ String.intercalate " " cells ++ "\t" ++ bgSentence
          let (restRows, err) := weightRows sliced rest (i + 1)
          (row :: restRows, err)

/-- Lines 146-148: the optional entailment-score line for one option;
`ent?` is this instance's entailment score vector when an
`entailment_scorer` output was present. -/
def entailmentLines (ent? : Option Tensor) (optionId : Nat) :
    Except PyError (List String) :=
  match ent? with
  | none => .ok []
  | some ent =>
    match ent.ix? optionId with
    | none => .error .indexError
    | some t =>
      match t.asRat? with
      | none => .error .typeError
      | some r => .ok ["\tEntailment score: " ++ formatFixed4 r]

/-- Body of the `for option_id, option_instance in ...` loop (lines
135-158) for one option: index the score, index each hop's attention
at the option, slice off leading padding with
`values[-len(option_background_info):]`, then print the option line,
score line, optional entailment line, weight-table header, weight rows,
and a trailing blank line.  Returns the lines written before any error,
and the error if one occurred. -/
def emitOption (questionScores : Tensor) (questionAttn : List Tensor)
    (ent? : Option Tensor) (optionId : Nat) (opt : OptionInstance) :
    List String × Option PyError :=
  let bg := opt.background
  match questionScores.ix? optionId with
  | none => ([], some .indexError)
  | some scoreT =>
    match ixEach questionAttn optionId with
    | none => ([], some .indexError)
    | some optionAttnT =>
      match asArrEach optionAttnT with
      | none => ([], some .typeError)
      | some hopLists =>
        let sliced := hopLists.map (pySliceFromNeg bg.length)
        let optionLine := "\tOption " ++ toString optionId ++ ": " ++ opt.text
        match scoreT.asRat? with
        | none => ([optionLine], some .typeError)
        | some score =>
          let scoreLine := "\tAssigned score: " ++ formatFixed4 score
          match entailmentLines ent? optionId with
          | .error e => ([optionLine, scoreLine], some e)
          | .ok entLines =>
            let header := "\tWeights on background:"
            let (rows, err) := weightRows sliced bg 0
            match err with
            | some e =>
              ([optionLine, scoreLine] ++ entLines ++ [header] ++ rows, some e)
            | none =>
              ([optionLine, scoreLine] ++ entLines ++ [header] ++ rows ++ [""],
               none)

/-- The option loop itself: options in order, stopping at the first
error and keeping the lines written so far. -/
def emitOptions (questionScores : Tensor) (questionAttn : List Tensor)
    (ent? : Option Tensor) :
    List OptionInstance → Nat → List String × Option PyError
  | [], _ => ([], none)
  | opt :: rest, optionId =>
    let (lines, err) := emitOption questionScores questionAttn ent? optionId opt
    match err with
    | some e => (lines, some e)
    | none =>
      let (restLines, err2) :=
        emitOptions questionScores questionAttn ent? rest (optionId + 1)
      (lines ++ restLines, err2)

/-- Per-instance entailment extraction (lines 131-132):
`entailment_scores = all_entailment_scores[instance_index]` when the
entailment output is present. -/
def instanceEnt (entAll? : Option Tensor) (instanceIndex : Nat) :
    Except PyError (Option Tensor) :=
  match entAll? with
  | none => .ok none
  | some entAll =>
    match entAll.ix? instanceIndex with
    | none => .error .indexError
    | some e => .ok (some e)

/-- Body of the `for instance_index, instance in ...` loop (lines
128-158) for one instance: index the batch outputs at the instance,
print the correct-answer line, then emit every option. -/
def emitInstance (scoresAll : Tensor) (attnAll : List Tensor)
    (entAll? : Option Tensor) (instanceIndex : Nat) (inst : QuestionInstance) :
    List String × Option PyError :=
  match scoresAll.ix? instanceIndex with
  | none => ([], some .indexError)
  | some questionScores =>
    match ixEach attnAll instanceIndex with
    | none => ([], some .indexError)
    | some questionAttn =>
      match instanceEnt entAll? instanceIndex with
      | .error e => ([], some e)
      | .ok ent? =>
        let answerLine := "Correct answer: " ++ toString inst.label
        let (optLines, err) :=
          emitOptions questionScores questionAttn ent? inst.options 0
        (answerLine :: optLines, err)

/-- The instance loop itself: instances in order, stopping at the first
error and keeping the lines written so far. -/
def emitInstances (scoresAll : Tensor) (attnAll : List Tensor)
    (entAll? : Option Tensor) :
    List QuestionInstance → Nat → List String × Option PyError
  | [], _ => ([], none)
  | inst :: rest, idx =>
    let (lines, err) := emitInstance scoresAll attnAll entAll? idx inst
    match err with
    | some e => (lines, some e)
    | none =>
      let (restLines, err2) := emitInstances scoresAll attnAll entAll? rest (idx + 1)
      (lines ++ restLines, err2)

/-- The observable effect of one `_handle_debug_output` call on the
report file: the path passed to `open`, whether `open(..., "w")` ran
(creating/truncating the file), the lines written before returning or
raising, whether `close()` ran, and the error raised, if any. -/
structure FileReport where
  path : String
  created : Bool
  lines : List String
  closed : Bool
  error : Option PyError
deriving DecidableEq, Repr

/-- `_handle_debug_output(dataset, layer_names, outputs, epoch)` (lines
113-159).  The file is opened first, unconditionally; the layer scan
and the two `assert` statements run next (softmax before attention);
then the instance loop; `close()` runs only if no exception escaped
(the function has no `try`/`finally`). -/
def handleDebugOutput (modelPfx : String) (dataset : List QuestionInstance)
    (layerNames : List String) (outputs : List Tensor) (epoch : Nat) :
    FileReport :=
  let path := modelPfx ++ "_debug_" ++ toString epoch ++ ".txt"
  match scanLayers outputs layerNames 0 (none, [], none) with
  | .error e =>
    { path, created := true, lines := [], closed := false, error := some e }
  | .ok (scores?, attn, ent?) =>
    match scores? with
    | none =>
      { path, created := true, lines := [], closed := false,
        error := some .missingSoftmax }
    | some scoresAll =>
      if attn.length > 0 then
        let (lines, err) := emitInstances scoresAll attn ent? dataset 0
        match err with
        | some e => { path, created := true, lines, closed := false, error := some e }
        | none => { path, created := true, lines, closed := true, error := none }
      else
        { path, created := true, lines := [], closed := false,
          error := some .missingAttention }

/-! Typed views of the batch outputs, used to state refinement theorems:
a well-typed score batch is a matrix of rationals, an attention-hop
batch a rank-3 array, embedded into `Tensor` by the following maps. -/

/-- A numeric vector as a tensor. -/
def vecT (ws : List Rat) : Tensor := .arr (ws.map Tensor.scalar)

/-- A numeric matrix as a tensor. -/
def matT (m : List (List Rat)) : Tensor := .arr (m.map vecT)

/-- A numeric rank-3 array as a tensor. -/
def cubeT (c : List (List (List Rat))) : Tensor := .arr (c.map matT)

instance : Inhabited OptionInstance := ⟨⟨"", []⟩⟩

instance : Inhabited QuestionInstance := ⟨⟨0, []⟩⟩

/-! Specification-side descriptions of the report, written from the
spec's words, to be compared with the embedded code. -/

/-- The attention weights the spec says are emitted for one hop of one
option: the trailing slice of the hop's weight vector, of length equal
to the option's actual background sentence count (leading padding
positions discarded); when fewer weights are available, all of them. -/
def specEmittedWeights (bgCount : Nat) (ws : List Rat) : List Rat :=
  if ws.length ≤ bgCount then ws else ws.drop (ws.length - bgCount)

/-- The spec's weight table for one option: one row per background
sentence, stopping when the `K` available attention weights run out;
each row holds one formatted weight per hop followed by the sentence. -/
def specWeightTable (K : Nat) (hopVecs : List (List Rat)) (bg : List String) :
    List String :=
  (List.range (min bg.length K)).map fun k =>
    "\t\t" ++ String.intercalate " "
        (hopVecs.map fun ws => formatFixed4 ((specEmittedWeights bg.length ws).getD k 0)) ++
      "\t" ++ bg.getD k ""

/-- The spec's sub-block for one option: option text, assigned score to
four decimal places, optional entailment score, weight table, and a
trailing blank line. -/
def specOptionBlock (K : Nat) (optionId : Nat) (opt : OptionInstance)
    (score : Rat) (ent? : Option Rat) (hopVecs : List (List Rat)) : List String :=
  ["\tOption " ++ toString optionId ++ ": " ++ opt.text,
   "\tAssigned score: " ++ formatFixed4 score] ++
  (match ent? with
   | none => []
   | some e => ["\tEntailment score: " ++ formatFixed4 e]) ++
  ("\tWeights on background:" :: specWeightTable K hopVecs opt.background) ++ [""]

/-- The spec's block for one instance: the correct label, then one
sub-block per option.  `srow`, `hopRows` and `entRow?` are this
instance's slices of the batch data, indexed by option. -/
def specInstanceBlock (K : Nat) (inst : QuestionInstance) (srow : List Rat)
    (hopRows : List (List (List Rat))) (entRow? : Option (List Rat)) :
    List String :=
  ("Correct answer: " ++ toString inst.label) ::
    ((List.range inst.options.length).map fun o =>
      specOptionBlock K o (inst.options.getD o default) (srow.getD o 0)
        (entRow?.map fun er => er.getD o 0)
        (hopRows.map fun m => m.getD o [])).flatten

/-- The spec's whole report: one block per instance, in order. -/
def specReport (K : Nat) (dataset : List QuestionInstance)
    (scores : List (List Rat)) (attn : List (List (List (List Rat))))
    (ent? : Option (List (List Rat))) : List String :=
  ((List.range dataset.length).map fun i =>
    specInstanceBlock K (dataset.getD i default) (scores.getD i [])
      (attn.map fun hop => hop.getD i [])
      (ent?.map fun e => e.getD i [])).flatten

/-! Specification-side description of the name-based output matching
performed by the scan at lines 118-124. -/

/-- An output counted as the final per-option score distribution: its
name ends with `"softmax"`. -/
def softmaxNamed (q : String × Tensor) : Bool := strEndsWith q.1 "softmax"

/-- An output counted as a per-hop attention trace: its name contains
`"knowledge_selector"` and does not end with `"softmax"` (a name ending
with `"softmax"` is claimed by the earlier branch of the chain). -/
def attnNamed (q : String × Tensor) : Bool :=
  !strEndsWith q.1 "softmax" && strContains q.1 "knowledge_selector"

/-- An output counted as the raw entailment score: its name is exactly
`"entailment_scorer"`. -/
def entailmentNamed (q : String × Tensor) : Bool := q.1 == "entailment_scorer"

/-- Last-match-wins selection over named outputs in input order,
starting from a default: the value of the last pair satisfying `p`, or
the default when none does. -/
def lastOutputNamed (p : String × Tensor → Bool) :
    List (String × Tensor) → Option Tensor → Option Tensor
  | [], dflt => dflt
  | q :: rest, dflt => lastOutputNamed p rest (if p q then some q.2 else dflt)

/-- The value bound to `key` in the dict returned by
`_get_max_lengths`, used to state shape-template claims in the spec's
key vocabulary. -/
def maxLengthOf (s : SolverShapes) (key : String) : Option Nat :=
  match (getMaxLengths s).find? (fun p => p.1 == key) with
  | some p => p.2
  | none => none

/-- The layer a `TimeDistributed` wrapper was applied to, if any. -/
def Layer.innerLayer : Layer → Option Layer
  | .base _ => none
  | .timeDist inner _ => some inner

/-! Concrete sample batch used to witness the report-format theorem: two
options, one attention hop, entailment scores present. -/

/-- Sample dataset: one two-option question. -/
def sampleDataset : List QuestionInstance :=
  [{ label := 0,
     options := [{ text := "opt a", background := ["s1", "s2"] },
                 { text := "opt b", background := ["s3"] }] }]

/-- Sample per-option final scores. -/
def sampleScores : List (List Rat) := [[mkRat 1 4, mkRat 3 4]]

/-- Sample attention weights: one hop, one instance, two options, two
padded weight positions each. -/
def sampleAttn : List (List (List (List Rat))) :=
  [[[[mkRat 1 10, mkRat 9 10], [mkRat 2 10, mkRat 8 10]]]]

/-- Sample raw entailment scores. -/
def sampleEnt : List (List Rat) := [[mkRat 3 10, mkRat 6 10]]

/-- Sample layer names, one of each recognized kind. -/
def sampleNames : List String :=
  ["softmax", "timedist_knowledge_selector_0", "entailment_scorer"]

/-- The sample outputs aligned with `sampleNames`. -/
def sampleOutputs : List Tensor :=
  [matT sampleScores, cubeT (sampleAttn.getD 0 []), matT sampleEnt]

/-! ## Theorems

Helper lemmas first: evaluation of the handler's dynamic indexing on
well-typed (numeric, in-range) batch data. -/

lemma vecT_ix (ws : List Rat) (i : Nat) (h : i < ws.length) :
    (vecT ws).ix? i = some (.scalar (ws.getD i 0)) := by
  simp [vecT, Tensor.ix?, List.getElem?_map, List.getElem?_eq_getElem h,
    List.getD_eq_getElem?_getD]

lemma matT_ix (m : List (List Rat)) (i : Nat) (h : i < m.length) :
    (matT m).ix? i = some (vecT (m.getD i [])) := by
  simp [matT, Tensor.ix?, List.getElem?_map, List.getElem?_eq_getElem h,
    List.getD_eq_getElem?_getD]

lemma cubeT_ix (c : List (List (List Rat))) (i : Nat) (h : i < c.length) :
    (cubeT c).ix? i = some (matT (c.getD i [])) := by
  simp [cubeT, Tensor.ix?, List.getElem?_map, List.getElem?_eq_getElem h,
    List.getD_eq_getElem?_getD]

lemma ixEach_matT (ms : List (List (List Rat))) (i : Nat)
    (h : ∀ m ∈ ms, i < m.length) :
    ixEach (ms.map matT) i = some (ms.map fun m => vecT (m.getD i [])) := by
  induction ms with
  | nil => rfl
  | cons m rest ih =>
    simp [ixEach, matT_ix m i (h m (by simp)),
      ih fun x hx => h x (by simp [hx])]

lemma ixEach_cubeT (cs : List (List (List (List Rat)))) (i : Nat)
    (h : ∀ c ∈ cs, i < c.length) :
    ixEach (cs.map cubeT) i = some (cs.map fun c => matT (c.getD i [])) := by
  induction cs with
  | nil => rfl
  | cons c rest ih =>
    simp [ixEach, cubeT_ix c i (h c (by simp)),
      ih fun x hx => h x (by simp [hx])]

lemma asArrEach_vecT (hopRows : List (List (List Rat))) (optionId : Nat) :
    asArrEach (hopRows.map fun m => vecT (m.getD optionId [])) =
      some (hopRows.map fun m => (m.getD optionId []).map Tensor.scalar) := by
  induction hopRows with
  | nil => rfl
  | cons m rest ih =>
    simp [asArrEach, vecT, Tensor.asArr?] at ih ⊢
    rw [ih]

lemma pySliceFromNeg_map (f : α → β) (n : Nat) (xs : List α) :
    pySliceFromNeg n (xs.map f) = (pySliceFromNeg n xs).map f := by
  by_cases h : n = 0 <;> simp [pySliceFromNeg, h, List.map_drop]

lemma specEmittedWeights_eq_drop (n : Nat) (ws : List Rat) :
    specEmittedWeights n ws = ws.drop (ws.length - n) := by
  unfold specEmittedWeights
  by_cases h : ws.length ≤ n <;> simp [h, Nat.sub_eq_zero_of_le]

lemma pySliceFromNeg_eq_spec (n : Nat) (ws : List Rat) (h : 0 < n) :
    pySliceFromNeg n ws = specEmittedWeights n ws := by
  rw [specEmittedWeights_eq_drop]
  simp [pySliceFromNeg, Nat.pos_iff_ne_zero.mp h]

lemma specEmittedWeights_length (n : Nat) (ws : List Rat) (h : 0 < n) :
    (specEmittedWeights n ws).length = min n ws.length := by
  rw [specEmittedWeights_eq_drop]
  simp
  omega

lemma hopCells_scalars (tss : List (List Rat)) (i : Nat)
    (h : ∀ ts ∈ tss, i < ts.length) :
    hopCells (tss.map fun ts => ts.map Tensor.scalar) i =
      .ok (tss.map fun ts => formatFixed4 (ts.getD i 0)) := by
  induction tss with
  | nil => rfl
  | cons ts rest ih =>
    have h1 : i < ts.length := h ts (by simp)
    simp [hopCells, List.getElem?_map, List.getElem?_eq_getElem h1,
      Tensor.asRat?, ih fun x hx => h x (by simp [hx]),
      List.getD_eq_getElem?_getD]

lemma weightRows_scalars (t0 : List Rat) (ts' : List (List Rat)) (M : Nat)
    (hm : ∀ ts ∈ t0 :: ts', ts.length = M) (bg : List String) :
    ∀ i : Nat,
    weightRows ((t0 :: ts').map fun ts => ts.map Tensor.scalar) bg i =
      ((List.range (min bg.length (M - i))).map fun k =>
        "\t\t" ++ String.intercalate " "
            ((t0 :: ts').map fun ts => formatFixed4 (ts.getD (i + k) 0)) ++
          "\t" ++ bg.getD k "", none) := by
  induction bg with
  | nil => intro i; simp [weightRows]
  | cons b rest ih =>
    intro i
    have h0 : t0.length = M := hm t0 (by simp)
    by_cases hi : M ≤ i
    · have hz : M - i = 0 := Nat.sub_eq_zero_of_le hi
      simp [weightRows, hz, h0, hi]
    · push_neg at hi
      have hcells := hopCells_scalars (t0 :: ts') i fun ts hts => (hm ts hts) ▸ hi
      have hni : ¬ M ≤ i := Nat.not_le.mpr hi
      have harith : M - i = (M - (i + 1)) + 1 := by omega
      have hfun : ∀ k : Nat, (i + 1) + k = i + (k + 1) := by omega
      simp only [List.map_cons] at hcells ih ⊢
      simp only [weightRows, List.getElem?_cons_zero, List.length_map, h0,
        hcells, ih (i + 1), ge_iff_le, hni, if_false, List.length_cons]
      rw [harith]
      have hmin : min (rest.length + 1) (M - (i + 1) + 1) =
          min rest.length (M - (i + 1)) + 1 := by omega
      rw [hmin, List.range_succ_eq_map]
      simp only [List.map_cons, List.map_map]
      simp only [Function.comp_def]
      simp only [Nat.succ_eq_add_one]
      simp only [hfun]
      simp only [Nat.add_zero]
      simp only [List.getD_cons_zero, List.getD_cons_succ]

lemma weightRows_sliced (wss : List (List Rat)) (K : Nat) (bg : List String)
    (hne : wss ≠ []) (hlen : ∀ ws ∈ wss, ws.length = K) :
    weightRows ((wss.map fun ws => ws.map Tensor.scalar).map
        (pySliceFromNeg bg.length)) bg 0 =
      (specWeightTable K wss bg, none) := by
  obtain ⟨w0, ws', rfl⟩ : ∃ w0 ws', wss = w0 :: ws' := by
    cases wss with
    | nil => exact absurd rfl hne
    | cons a l => exact ⟨a, l, rfl⟩
  cases bg with
  | nil => simp [weightRows, specWeightTable]
  | cons b rest =>
    have hn : 0 < (b :: rest).length := by simp
    have hn0 : (b :: rest).length ≠ 0 := by simp
    have hcomm : ((w0 :: ws').map fun ws => ws.map Tensor.scalar).map
          (pySliceFromNeg (b :: rest).length) =
        (pySliceFromNeg (b :: rest).length w0 ::
          ws'.map (pySliceFromNeg (b :: rest).length)).map
          fun ws => ws.map Tensor.scalar := by
      simp [List.map_map, Function.comp_def, pySliceFromNeg_map]
    rw [hcomm]
    have hslice_len : ∀ ws : List Rat, ws ∈ w0 :: ws' →
        (pySliceFromNeg (b :: rest).length ws).length =
          min (b :: rest).length K := by
      intro ws hws
      have hw := hlen ws hws
      simp [pySliceFromNeg, hn0]
      omega
    have hm' : ∀ ts ∈ pySliceFromNeg (b :: rest).length w0 ::
          ws'.map (pySliceFromNeg (b :: rest).length),
        ts.length = min (b :: rest).length K := by
      intro ts hts
      rcases List.mem_cons.mp hts with h | h
      · subst h; exact hslice_len w0 (by simp)
      · obtain ⟨ws, hws, rfl⟩ := List.mem_map.mp h
        exact hslice_len ws (by simp [hws])
    rw [weightRows_scalars _ _ _ hm' (b :: rest) 0]
    unfold specWeightTable
    have hminmin : min (b :: rest).length (min (b :: rest).length K - 0) =
        min (b :: rest).length K := by omega
    rw [hminmin]
    congr 1
    congr 1
    funext k
    simp [Nat.zero_add, List.map_map, Function.comp_def,
      pySliceFromNeg_eq_spec, hn]

lemma entailmentLines_typed (entRow? : Option (List Rat)) (optionId : Nat)
    (he : ∀ er ∈ entRow?, optionId < er.length) :
    entailmentLines (entRow?.map vecT) optionId =
      .ok (match entRow?.map fun er => er.getD optionId 0 with
           | none => []
           | some e => ["\tEntailment score: " ++ formatFixed4 e]) := by
  cases entRow? with
  | none => rfl
  | some er =>
    have h := he er rfl
    simp [entailmentLines, vecT_ix er optionId h, Tensor.asRat?]

lemma instanceEnt_typed (entData? : Option (List (List Rat))) (i : Nat)
    (he : ∀ e ∈ entData?, i < e.length) :
    instanceEnt (entData?.map matT) i =
      .ok ((entData?.map fun e => e.getD i []).map vecT) := by
  cases entData? with
  | none => rfl
  | some e =>
    have h := he e rfl
    simp [instanceEnt, matT_ix e i h]

lemma emitOption_typed (srow : List Rat) (hopRows : List (List (List Rat)))
    (entRow? : Option (List Rat)) (optionId : Nat) (opt : OptionInstance)
    (K : Nat)
    (hs : optionId < srow.length)
    (hh : hopRows ≠ [])
    (hr : ∀ m ∈ hopRows, optionId < m.length)
    (hK : ∀ m ∈ hopRows, (m.getD optionId []).length = K)
    (he : ∀ er ∈ entRow?, optionId < er.length) :
    emitOption (vecT srow) (hopRows.map matT) (entRow?.map vecT) optionId opt =
      (specOptionBlock K optionId opt (srow.getD optionId 0)
        (entRow?.map fun er => er.getD optionId 0)
        (hopRows.map fun m => m.getD optionId []), none) := by
  have hwss_ne : hopRows.map (fun m => m.getD optionId []) ≠ [] := by
    simpa using hh
  have hwss_len : ∀ ws ∈ hopRows.map (fun m => m.getD optionId []),
      ws.length = K := by
    intro ws hws
    obtain ⟨m, hm, rfl⟩ := List.mem_map.mp hws
    exact hK m hm
  have hsliced := weightRows_sliced (hopRows.map fun m => m.getD optionId [])
    K opt.background hwss_ne hwss_len
  have hmaps : (hopRows.map fun m => m.getD optionId []).map
        (fun ws => ws.map Tensor.scalar) =
      hopRows.map fun m => (m.getD optionId []).map Tensor.scalar := by
    simp [List.map_map, Function.comp_def]
  rw [hmaps] at hsliced
  simp only [emitOption, vecT_ix srow optionId hs, ixEach_matT hopRows optionId hr,
    asArrEach_vecT hopRows optionId, Tensor.asRat?, hsliced,
    entailmentLines_typed entRow? optionId he, specOptionBlock]
  cases entRow? <;> simp

/-- C4: for every option, the weight rows the handler emits use, per
hop, the trailing slice of the hop's weight vector of length equal to
the option's actual background sentence count (leading padding
discarded; `specEmittedWeights` is literally that trailing slice), one
row per background sentence; when fewer than `bg.length` weights are
available the table stops after `min bg.length K` rows, with no error
raised. -/
theorem attention_weights_right_aligned (wss : List (List Rat)) (K : Nat)
    (bg : List String) (hne : wss ≠ []) (hlen : ∀ ws ∈ wss, ws.length = K) :
    weightRows ((wss.map fun ws => ws.map Tensor.scalar).map
        (pySliceFromNeg bg.length)) bg 0 =
      (specWeightTable K wss bg, none) ∧
    (specWeightTable K wss bg).length = min bg.length K ∧
    ∀ ws ∈ wss, specEmittedWeights bg.length ws =
      ws.drop (ws.length - bg.length) := by
  refine ⟨weightRows_sliced wss K bg hne hlen, by simp [specWeightTable], ?_⟩
  intro ws _
  exact specEmittedWeights_eq_drop _ _

/-- Witness for C4: two hops of two padded weights each, one real
background sentence; the emitted row holds each hop's trailing weight,
and no error is raised. -/
theorem attention_weights_right_aligned_witness :
    weightRows ((([[mkRat 1 10, mkRat 9 10], [mkRat 2 10, mkRat 8 10]]).map
          (fun ws => ws.map Tensor.scalar)).map
        (pySliceFromNeg (["the sentence"] : List String).length))
      ["the sentence"] 0 =
      (["\t\t0.9000 0.8000\tthe sentence"], none) := by
  have h := attention_weights_right_aligned
    [[mkRat 1 10, mkRat 9 10], [mkRat 2 10, mkRat 8 10]] 2 ["the sentence"]
    (by decide) (by decide)
  rw [h.1]
  decide

lemma emitOptions_typed (srow : List Rat) (hopMats : List (List (List Rat)))
    (entRow? : Option (List Rat)) (K : Nat) (hh : hopMats ≠ []) :
    ∀ (opts : List OptionInstance) (j : Nat),
    (∀ k, k < opts.length → j + k < srow.length) →
    (∀ m ∈ hopMats, ∀ k, k < opts.length → j + k < m.length) →
    (∀ m ∈ hopMats, ∀ k, k < opts.length → (m.getD (j + k) []).length = K) →
    (∀ er ∈ entRow?, ∀ k, k < opts.length → j + k < er.length) →
    emitOptions (vecT srow) (hopMats.map matT) (entRow?.map vecT) opts j =
      (((List.range opts.length).map fun k =>
        specOptionBlock K (j + k) (opts.getD k default) (srow.getD (j + k) 0)
          (entRow?.map fun er => er.getD (j + k) 0)
          (hopMats.map fun m => m.getD (j + k) [])).flatten, none) := by
  intro opts
  induction opts with
  | nil =>
    intro j _ _ _ _
    simp [emitOptions]
  | cons opt rest ih =>
    intro j hs hr hK he
    have h0s : j < srow.length := by
      have := hs 0 (by simp); simpa using this
    have h0r : ∀ m ∈ hopMats, j < m.length := by
      intro m hm; have := hr m hm 0 (by simp); simpa using this
    have h0K : ∀ m ∈ hopMats, (m.getD j []).length = K := by
      intro m hm; have := hK m hm 0 (by simp); simpa using this
    have h0e : ∀ er ∈ entRow?, j < er.length := by
      intro er her; have := he er her 0 (by simp); simpa using this
    have hopt := emitOption_typed srow hopMats entRow? j opt K h0s hh h0r h0K h0e
    have hfun : ∀ k : Nat, (j + 1) + k = j + (k + 1) := by omega
    have hrec := ih (j + 1)
      (fun k hk => by rw [hfun]; exact hs (k + 1) (by simpa using hk))
      (fun m hm k hk => by rw [hfun]; exact hr m hm (k + 1) (by simpa using hk))
      (fun m hm k hk => by rw [hfun]; exact hK m hm (k + 1) (by simpa using hk))
      (fun er her k hk => by rw [hfun]; exact he er her (k + 1) (by simpa using hk))
    simp only [emitOptions, hopt, hrec, List.length_cons, List.range_succ_eq_map,
      List.map_cons, List.flatten_cons, List.map_map, Function.comp_def,
      Nat.succ_eq_add_one, Nat.add_zero, List.getD_cons_zero,
      List.getD_cons_succ, hfun]

lemma emitInstance_typed (scores : List (List Rat))
    (attnData : List (List (List (List Rat))))
    (entData? : Option (List (List Rat))) (i : Nat) (inst : QuestionInstance)
    (K : Nat)
    (hh : attnData ≠ [])
    (hsi : i < scores.length)
    (hai : ∀ hop ∈ attnData, i < hop.length)
    (hei : ∀ e ∈ entData?, i < e.length)
    (hsl : (scores.getD i []).length = inst.options.length)
    (hal : ∀ hop ∈ attnData, (hop.getD i []).length = inst.options.length)
    (hK : ∀ hop ∈ attnData, ∀ o, o < inst.options.length →
      ((hop.getD i []).getD o []).length = K)
    (hel : ∀ e ∈ entData?, (e.getD i []).length = inst.options.length) :
    emitInstance (matT scores) (attnData.map cubeT) (entData?.map matT) i inst =
      (specInstanceBlock K inst (scores.getD i [])
        (attnData.map fun hop => hop.getD i [])
        (entData?.map fun e => e.getD i []), none) := by
  have hix := matT_ix scores i hsi
  have hixa := ixEach_cubeT attnData i hai
  have hient := instanceEnt_typed entData? i hei
  have hbr : attnData.map (fun c => matT (c.getD i [])) =
      (attnData.map fun c => c.getD i []).map matT := by
    simp [List.map_map, Function.comp_def]
  rw [hbr] at hixa
  have hopts := emitOptions_typed (scores.getD i [])
    (attnData.map fun c => c.getD i []) (entData?.map fun e => e.getD i []) K
    (by simpa using hh) inst.options 0
    (fun k hk => by rw [Nat.zero_add, hsl]; exact hk)
    (fun m hm k hk => by
      obtain ⟨hop, hhop, rfl⟩ := List.mem_map.mp hm
      rw [Nat.zero_add, hal hop hhop]; exact hk)
    (fun m hm k hk => by
      obtain ⟨hop, hhop, rfl⟩ := List.mem_map.mp hm
      rw [Nat.zero_add]; exact hK hop hhop k hk)
    (fun er her k hk => by
      cases entData? with
      | none => exact absurd her (by simp)
      | some e =>
        have h' := Option.mem_iff.mp her
        rw [Option.map_some'] at h'
        have herr := Option.some.inj h'
        subst herr
        rw [Nat.zero_add, hel e rfl]; exact hk)
  simp only [emitInstance, hix, hixa, hient, hopts, specInstanceBlock,
    Nat.zero_add]

lemma emitInstances_typed (scores : List (List Rat))
    (attnData : List (List (List (List Rat))))
    (entData? : Option (List (List Rat))) (K : Nat) (hh : attnData ≠ []) :
    ∀ (insts : List QuestionInstance) (idx : Nat),
    (∀ k, k < insts.length → idx + k < scores.length) →
    (∀ hop ∈ attnData, ∀ k, k < insts.length → idx + k < hop.length) →
    (∀ e ∈ entData?, ∀ k, k < insts.length → idx + k < e.length) →
    (∀ k, k < insts.length → (scores.getD (idx + k) []).length =
      (insts.getD k default).options.length) →
    (∀ hop ∈ attnData, ∀ k, k < insts.length → (hop.getD (idx + k) []).length =
      (insts.getD k default).options.length) →
    (∀ hop ∈ attnData, ∀ k, k < insts.length →
      ∀ o, o < (insts.getD k default).options.length →
      ((hop.getD (idx + k) []).getD o []).length = K) →
    (∀ e ∈ entData?, ∀ k, k < insts.length → (e.getD (idx + k) []).length =
      (insts.getD k default).options.length) →
    emitInstances (matT scores) (attnData.map cubeT) (entData?.map matT)
        insts idx =
      (((List.range insts.length).map fun k =>
        specInstanceBlock K (insts.getD k default) (scores.getD (idx + k) [])
          (attnData.map fun hop => hop.getD (idx + k) [])
          (entData?.map fun e => e.getD (idx + k) [])).flatten, none) := by
  intro insts
  induction insts with
  | nil =>
    intro idx _ _ _ _ _ _ _
    simp [emitInstances]
  | cons inst rest ih =>
    intro idx h1 h2 h3 h4 h5 h6 h7
    have h0i : idx < scores.length := by
      have := h1 0 (by simp); simpa using this
    have h0a : ∀ hop ∈ attnData, idx < hop.length := by
      intro hop hhop; have := h2 hop hhop 0 (by simp); simpa using this
    have h0e : ∀ e ∈ entData?, idx < e.length := by
      intro e he; have := h3 e he 0 (by simp); simpa using this
    have h0sl : (scores.getD idx []).length = inst.options.length := by
      have := h4 0 (by simp); simpa using this
    have h0al : ∀ hop ∈ attnData, (hop.getD idx []).length =
        inst.options.length := by
      intro hop hhop; have := h5 hop hhop 0 (by simp); simpa using this
    have h0K : ∀ hop ∈ attnData, ∀ o, o < inst.options.length →
        ((hop.getD idx []).getD o []).length = K := by
      intro hop hhop o ho
      have := h6 hop hhop 0 (by simp) o (by simpa using ho)
      simpa using this
    have h0el : ∀ e ∈ entData?, (e.getD idx []).length =
        inst.options.length := by
      intro e he; have := h7 e he 0 (by simp); simpa using this
    have hinst := emitInstance_typed scores attnData entData? idx inst K hh
      h0i h0a h0e h0sl h0al h0K h0el
    have hfun : ∀ k : Nat, (idx + 1) + k = idx + (k + 1) := by omega
    have hrec := ih (idx + 1)
      (fun k hk => by rw [hfun]; exact h1 (k + 1) (by simpa using hk))
      (fun hop hhop k hk => by
        rw [hfun]; exact h2 hop hhop (k + 1) (by simpa using hk))
      (fun e he k hk => by rw [hfun]; exact h3 e he (k + 1) (by simpa using hk))
      (fun k hk => by
        rw [hfun]
        have := h4 (k + 1) (by simpa using hk)
        simpa using this)
      (fun hop hhop k hk => by
        rw [hfun]
        have := h5 hop hhop (k + 1) (by simpa using hk)
        simpa using this)
      (fun hop hhop k hk o ho => by
        rw [hfun]
        have := h6 hop hhop (k + 1) (by simpa using hk) o (by simpa using ho)
        simpa using this)
      (fun e he k hk => by
        rw [hfun]
        have := h7 e he (k + 1) (by simpa using hk)
        simpa using this)
    simp only [emitInstances, hinst, hrec, List.length_cons,
      List.range_succ_eq_map, List.map_cons, List.flatten_cons, List.map_map,
      Function.comp_def, Nat.succ_eq_add_one, Nat.add_zero,
      List.getD_cons_zero, List.getD_cons_succ, hfun]

/-- C3: for every mapping containing all three keys
`word_sequence_length`, `background_sentences` and `num_options` with
positive integer values, `set_max_lengths` succeeds, and
`get_max_lengths` then returns a mapping with exactly those three keys
bound to the identical three values. -/
theorem set_then_get_roundtrip (s : SolverShapes) (d : Dict) (a b c : Nat)
    (ha : d.lookup "word_sequence_length" = some a)
    (hb : d.lookup "background_sentences" = some b)
    (hc : d.lookup "num_options" = some c)
    (hpa : 0 < a) (hpb : 0 < b) (hpc : 0 < c) :
    (setMaxLengths s d).2 = none ∧
    getMaxLengths (setMaxLengths s d).1 =
      [("word_sequence_length", some a), ("background_sentences", some b),
       ("num_options", some c)] := by
  simp [setMaxLengths, ha, hb, hc, getMaxLengths]

/-- Witness for C3 at a concrete solver state and dictionary. -/
theorem set_then_get_roundtrip_witness :
    (setMaxLengths ⟨none, none, none⟩
        [("word_sequence_length", 10), ("background_sentences", 14),
         ("num_options", 4)]).2 = none ∧
    getMaxLengths (setMaxLengths ⟨none, none, none⟩
        [("word_sequence_length", 10), ("background_sentences", 14),
         ("num_options", 4)]).1 =
      [("word_sequence_length", some 10), ("background_sentences", some 14),
       ("num_options", some 4)] :=
  set_then_get_roundtrip ⟨none, none, none⟩ _ 10 14 4 rfl rfl rfl
    (by decide) (by decide) (by decide)

/-- C9: `_set_max_lengths` is not atomic on error: on a mapping holding
`word_sequence_length` and `background_sentences` but not `num_options`
it raises a missing-key error after the first two fields were already
overwritten, leaving `num_options` at its old value. -/
theorem setMaxLengths_nonatomic_on_missing_key (s : SolverShapes) (d : Dict)
    (a b : Nat)
    (ha : d.lookup "word_sequence_length" = some a)
    (hb : d.lookup "background_sentences" = some b)
    (hc : d.lookup "num_options" = none) :
    setMaxLengths s d =
      ({ max_sentence_length := some a, max_knowledge_length := some b,
         num_options := s.num_options }, some PyError.keyError) := by
  simp [setMaxLengths, ha, hb, hc]

/-- Witness for C9: the overwritten fields and the preserved old
`num_options` are visible at a concrete state and dictionary. -/
theorem setMaxLengths_nonatomic_on_missing_key_witness :
    setMaxLengths ⟨some 1, some 2, some 9⟩
        [("word_sequence_length", 7), ("background_sentences", 3)] =
      (⟨some 7, some 3, some 9⟩, some PyError.keyError) :=
  setMaxLengths_nonatomic_on_missing_key ⟨some 1, some 2, some 9⟩ _ 7 3
    rfl rfl rfl

/-- C5: for any solver state, the question shape template is exactly
`(num_options, word_sequence_length)` and the background shape template
is exactly `(num_options, background_sentences, word_sequence_length)`,
the options axis leading in both, where the names refer to the values
the solver reports under those keys in `_get_max_lengths`. -/
theorem shape_templates_options_leading (s : SolverShapes) :
    getQuestionShape s =
      [maxLengthOf s "num_options", maxLengthOf s "word_sequence_length"] ∧
    getBackgroundShape s =
      [maxLengthOf s "num_options", maxLengthOf s "background_sentences",
       maxLengthOf s "word_sequence_length"] := by
  cases s
  exact ⟨rfl, rfl⟩

/-- C6: the knowledge-axis accessor returns `2` unconditionally, one
more than the single-instance axis `1`, accounting for the prepended
options axis. -/
theorem knowledge_axis_is_two (s : SolverShapes) :
    getKnowledgeAxis s = 2 ∧ getKnowledgeAxis s = baseKnowledgeAxis + 1 :=
  ⟨rfl, rfl⟩

/-- C7: all five pipeline-stage getters wrap their base stage in
`TimeDistributed`, leaving the base stage inside unchanged, and each
wrapped stage's name is derived by prefixing the base stage's name with
`"timedist_"`. -/
theorem timedist_uniform_wrapping (enc sel comb upd entc : Layer)
    (hop1 hop2 hop3 : Nat) :
    (getSentenceEncoder enc).innerLayer = some enc ∧
    (getSentenceEncoder enc).name = "timedist_" ++ enc.name ∧
    (getKnowledgeSelector hop1 sel).innerLayer = some sel ∧
    (getKnowledgeSelector hop1 sel).name = "timedist_" ++ sel.name ∧
    (getKnowledgeCombiner hop2 comb).innerLayer = some comb ∧
    (getKnowledgeCombiner hop2 comb).name = "timedist_" ++ comb.name ∧
    (getMemoryUpdater hop3 upd).innerLayer = some upd ∧
    (getMemoryUpdater hop3 upd).name = "timedist_" ++ upd.name ∧
    (getEntailmentInputCombiner entc).innerLayer = some entc ∧
    (getEntailmentInputCombiner entc).name = "timedist_" ++ entc.name :=
  ⟨rfl, rfl, rfl, rfl, rfl, rfl, rfl, rfl, rfl, rfl⟩

/-- C2 counterexample: a stored input signature whose first input
tensor has five axes and whose second has four does not have the
expected axis structure, yet `_set_max_lengths_from_model` raises no
error, and the word sequence length it assigns is the size of axis 2,
not of the last axis (size 5). -/
theorem fromModel_accepts_malformed_signature :
    (setMaxLengthsFromModel ⟨none, none, none⟩
        [[1, 2, 3, 4, 5], [1, 2, 3, 4]]).2 = none ∧
    (setMaxLengthsFromModel ⟨none, none, none⟩
        [[1, 2, 3, 4, 5], [1, 2, 3, 4]]).1 = ⟨some 3, some 3, some 2⟩ ∧
    [1, 2, 3, 4, 5].getLast? = some 5 ∧ (3 : Nat) ≠ 5 := by decide

/-- C2 amended: on a signature with the expected axis structure (a
rank-3 first input and a rank-4 second input, batch axis included), the
values are recovered as claimed — `num_options` is the size of the
second axis of the first input tensor, `word_sequence_length` the size
of its last axis, `background_sentences` the size of the last-but-one
axis of the second input tensor, so a model built with options count
`k` yields `num_options = k` exactly; an error is raised exactly when
one of the fixed positions `[0][2]` or `[1][2]` that the code reads is
absent — signatures with extra axes are accepted silently. -/
theorem fromModel_fixed_positions (s : SolverShapes)
    (batch k sl batch2 k2 m sl2 : Nat) :
    setMaxLengthsFromModel s [[batch, k, sl], [batch2, k2, m, sl2]] =
      ({ max_sentence_length := some sl, max_knowledge_length := some m,
         num_options := some k }, none) ∧
    ∀ shapes : List (List Nat),
      ((shapes[0]? >>= fun t => t[2]?) = none ∨
       (shapes[1]? >>= fun t => t[2]?) = none) →
      (setMaxLengthsFromModel s shapes).2 = some PyError.indexError := by
  refine ⟨rfl, ?_⟩
  intro shapes h
  rcases h with h | h
  · simp [setMaxLengthsFromModel, h]
  · cases h0 : (shapes[0]? >>= fun t => t[2]?) with
    | none => simp [setMaxLengthsFromModel, h0]
    | some v => simp [setMaxLengthsFromModel, h0, h]

/-- Witness for the amended C2: a well-formed signature recovering
`num_options = 4`, and a too-short signature raising the error. -/
theorem fromModel_fixed_positions_witness :
    setMaxLengthsFromModel ⟨none, none, none⟩ [[32, 4, 10], [32, 4, 14, 10]] =
      (⟨some 10, some 14, some 4⟩, none) ∧
    (setMaxLengthsFromModel ⟨none, none, none⟩ [[5]]).2 =
      some PyError.indexError :=
  ⟨(fromModel_fixed_positions ⟨none, none, none⟩ 32 4 10 32 4 14 10).1,
   (fromModel_fixed_positions ⟨none, none, none⟩ 32 4 10 32 4 14 10).2
     [[5]] (Or.inl rfl)⟩

/-- C1 (as the code behaves): on named outputs with no final-score
output, and likewise with no attention-selector output, the handler
raises the corresponding missing-output error — but only after
`open(..., "w")` has already created/truncated the report file, and
`close()` is never reached on these paths, so an empty partial file is
left behind, not flushed/closed. -/
theorem debug_error_paths_leave_open_file :
    handleDebugOutput "model" [⟨0, [⟨"an option", ["a sentence"]⟩]⟩]
        ["timedist_knowledge_selector_0"] [Tensor.arr []] 7 =
      { path := "model_debug_7.txt", created := true, lines := [],
        closed := false, error := some PyError.missingSoftmax } ∧
    handleDebugOutput "model" [⟨0, [⟨"an option", ["a sentence"]⟩]⟩]
        ["option_softmax"] [Tensor.arr []] 7 =
      { path := "model_debug_7.txt", created := true, lines := [],
        closed := false, error := some PyError.missingAttention } := by
  constructor <;> decide

/-- C10 counterexample: an output whose name contains
`"knowledge_selector"` but also ends with `"softmax"` is captured by
the earlier softmax branch of the `if`/`elif` chain and is not
collected as an attention trace, contradicting the claim that any
output whose name contains `"knowledge_selector"` is an attention
trace. -/
theorem scan_softmax_precedence_counterexample :
    strContains "knowledge_selector_softmax" "knowledge_selector" = true ∧
    scanLayers [Tensor.scalar 1] ["knowledge_selector_softmax"] 0
        (none, [], none) =
      .ok (some (Tensor.scalar 1), [], none) :=
  ⟨by decide, rfl⟩

/-- C8: on well-typed batch outputs located by the layer scan, the
handler writes to the deterministic path
`{model_prefix}_debug_{epoch}.txt`, completes with the file closed and
no error, and its lines are exactly `specReport`: one block per
instance reporting the correct label, then per option a sub-block with
the option text, its score to four decimal places, its optional
entailment score, and the hop-weight table aligned with
background-sentence text, each sub-block (and hence each block)
separated by a blank line. -/
theorem debug_report_path_and_format (pfx : String) (epoch : Nat)
    (dataset : List QuestionInstance) (layerNames : List String)
    (outputs : List Tensor) (scores : List (List Rat))
    (attnData : List (List (List (List Rat))))
    (entData? : Option (List (List Rat))) (K : Nat)
    (hscan : scanLayers outputs layerNames 0 (none, [], none) =
      .ok (some (matT scores), attnData.map cubeT, entData?.map matT))
    (hh : attnData ≠ [])
    (hsl : scores.length = dataset.length)
    (hsrow : ∀ i, i < dataset.length → (scores.getD i []).length =
      (dataset.getD i default).options.length)
    (harow : ∀ hop ∈ attnData, ∀ i, i < dataset.length →
      (hop.getD i []).length = (dataset.getD i default).options.length)
    (haK : ∀ hop ∈ attnData, ∀ i, i < dataset.length →
      ∀ o, o < (dataset.getD i default).options.length →
      ((hop.getD i []).getD o []).length = K)
    (hel : ∀ e ∈ entData?, e.length = dataset.length)
    (herow : ∀ e ∈ entData?, ∀ i, i < dataset.length →
      (e.getD i []).length = (dataset.getD i default).options.length)
    (hal : ∀ hop ∈ attnData, hop.length = dataset.length) :
    handleDebugOutput pfx dataset layerNames outputs epoch =
      { path := pfx ++ "_debug_" ++ toString epoch ++ ".txt", created := true,
        lines := specReport K dataset scores attnData entData?,
        closed := true, error := none } := by
  have hinsts := emitInstances_typed scores attnData entData? K hh dataset 0
    (fun k hk => by rw [Nat.zero_add, hsl]; exact hk)
    (fun hop hhop k hk => by rw [Nat.zero_add, hal hop hhop]; exact hk)
    (fun e he k hk => by rw [Nat.zero_add, hel e he]; exact hk)
    (fun k hk => by rw [Nat.zero_add]; exact hsrow k hk)
    (fun hop hhop k hk => by rw [Nat.zero_add]; exact harow hop hhop k hk)
    (fun hop hhop k hk o ho => by rw [Nat.zero_add]; exact haK hop hhop k hk o ho)
    (fun e he k hk => by rw [Nat.zero_add]; exact herow e he k hk)
  have hpos : 0 < (attnData.map cubeT).length := by
    rw [List.length_map]
    exact List.length_pos.mpr hh
  simp only [handleDebugOutput, hscan, hinsts, specReport, Nat.zero_add,
    gt_iff_lt, hpos, if_true]

/-- Witness for C8: evaluating the sample batch yields the full report
verbatim, closed, error-free. -/
theorem debug_report_path_and_format_witness :
    handleDebugOutput "model" sampleDataset sampleNames sampleOutputs 2 =
      { path := "model_debug_2.txt", created := true,
        lines := ["Correct answer: 0",
          "\tOption 0: opt a", "\tAssigned score: 0.2500",
          "\tEntailment score: 0.3000", "\tWeights on background:",
          "\t\t0.1000\ts1", "\t\t0.9000\ts2", "",
          "\tOption 1: opt b", "\tAssigned score: 0.7500",
          "\tEntailment score: 0.6000", "\tWeights on background:",
          "\t\t0.8000\ts3", ""],
        closed := true, error := none } := by
  have h := debug_report_path_and_format "model" 2 sampleDataset sampleNames
    sampleOutputs sampleScores sampleAttn (some sampleEnt) 2 rfl
    (by decide) (by decide) (by decide) (by decide) (by decide) (by decide)
    (by decide) (by decide)
  rw [h]
  decide

lemma scanLayers_characterization (outputs : List Tensor) :
    ∀ (names : List String) (i : Nat) (sc : Option Tensor)
      (attn : List Tensor) (en : Option Tensor),
    i + names.length ≤ outputs.length →
    scanLayers outputs names i (sc, attn, en) =
      .ok (lastOutputNamed softmaxNamed (names.zip (outputs.drop i)) sc,
           attn ++ ((names.zip (outputs.drop i)).filter attnNamed).map Prod.snd,
           lastOutputNamed entailmentNamed (names.zip (outputs.drop i)) en) := by
  intro names
  induction names with
  | nil =>
    intro i sc attn en _
    simp [scanLayers, lastOutputNamed]
  | cons name rest ih =>
    intro i sc attn en h
    have hi : i < outputs.length := by simp at h; omega
    have hlen : (i + 1) + rest.length ≤ outputs.length := by simp at h; omega
    have hdrop : outputs.drop i = outputs[i] :: outputs.drop (i + 1) :=
      List.drop_eq_getElem_cons hi
    have hget : outputs[i]? = some outputs[i] := List.getElem?_eq_getElem hi
    rw [hdrop]
    cases h1 : strEndsWith name "softmax" with
    | true =>
      have hne : (name == "entailment_scorer") = false := by
        cases hbeq : name == "entailment_scorer" with
        | false => rfl
        | true =>
          exfalso
          have hname : name = "entailment_scorer" := eq_of_beq hbeq
          rw [hname] at h1
          exact absurd h1 (by decide)
      simp only [scanLayers, hget, h1, if_true]
      rw [ih (i + 1) (some outputs[i]) attn en hlen]
      simp [lastOutputNamed, softmaxNamed, attnNamed, entailmentNamed,
        List.filter_cons, h1, hne, List.zip_cons_cons,
        -List.getElem_cons_drop]
      all_goals first | rfl | exact ⟨rfl, rfl⟩ | exact ⟨rfl, rfl, rfl⟩
    | false =>
      cases h2 : strContains name "knowledge_selector" with
      | true =>
        have hne : (name == "entailment_scorer") = false := by
          cases hbeq : name == "entailment_scorer" with
          | false => rfl
          | true =>
            exfalso
            have hname : name = "entailment_scorer" := eq_of_beq hbeq
            rw [hname] at h2
            exact absurd h2 (by decide)
        simp only [scanLayers, hget, h1, h2, Bool.false_eq_true, if_false,
          if_true]
        rw [ih (i + 1) sc (attn ++ [outputs[i]]) en hlen]
        simp [lastOutputNamed, softmaxNamed, attnNamed, entailmentNamed,
          List.filter_cons, h1, h2, hne, List.zip_cons_cons,
          -List.getElem_cons_drop]
        all_goals first | rfl | exact ⟨rfl, rfl⟩ | exact ⟨rfl, rfl, rfl⟩
      | false =>
        by_cases h3 : name = "entailment_scorer"
        · have hbeq : (name == "entailment_scorer") = true := by
            rw [h3]; rfl
          simp only [scanLayers, hget, h1, h2, Bool.false_eq_true, if_false,
            h3, if_true]
          rw [ih (i + 1) sc attn (some outputs[i]) hlen]
          simp [lastOutputNamed, softmaxNamed, attnNamed, entailmentNamed,
            List.filter_cons, h1, h2, hbeq, List.zip_cons_cons,
            -List.getElem_cons_drop]
          all_goals first | rfl | exact ⟨rfl, rfl⟩ | exact ⟨rfl, rfl, rfl⟩
        · have hbeq : (name == "entailment_scorer") = false := by
            cases hb : name == "entailment_scorer" with
            | false => rfl
            | true => exact absurd (eq_of_beq hb) h3
          simp only [scanLayers, hget, h1, h2, Bool.false_eq_true, if_false,
            h3, if_true]
          rw [ih (i + 1) sc attn en hlen]
          simp [lastOutputNamed, softmaxNamed, attnNamed, entailmentNamed,
            List.filter_cons, h1, h2, hbeq, List.zip_cons_cons,
            -List.getElem_cons_drop]
          all_goals first | rfl | exact ⟨rfl, rfl⟩ | exact ⟨rfl, rfl, rfl⟩

/-- C10 amended: the scan matches outputs purely by name string — the
score distribution is the last output (in input order) whose name ends
with `"softmax"`; the attention traces are, in input order, the
outputs whose names contain `"knowledge_selector"` and do not also end
with `"softmax"` (those are claimed by the earlier softmax branch); the
entailment score is the last output named exactly
`"entailment_scorer"`; duplicate matches raise no uniqueness error —
the last match silently wins. -/
theorem scan_name_matching (names : List String) (outputs : List Tensor)
    (h : names.length ≤ outputs.length) :
    scanLayers outputs names 0 (none, [], none) =
      .ok (lastOutputNamed softmaxNamed (names.zip outputs) none,
           ((names.zip outputs).filter attnNamed).map Prod.snd,
           lastOutputNamed entailmentNamed (names.zip outputs) none) := by
  have h0 := scanLayers_characterization outputs names 0 none [] none
    (by omega)
  simpa using h0

/-- Witness for the amended C10: duplicate softmax and entailment names
resolve to the later output each, and the knowledge-selector output is
collected. -/
theorem scan_name_matching_witness :
    scanLayers [Tensor.scalar 0, Tensor.scalar 1, Tensor.scalar 2,
        Tensor.scalar 3, Tensor.scalar 4]
      ["a_softmax", "b_softmax", "entailment_scorer", "entailment_scorer",
       "timedist_knowledge_selector_1"] 0 (none, [], none) =
      .ok (some (Tensor.scalar 1), [Tensor.scalar 4],
        some (Tensor.scalar 3)) := by
  have h := scan_name_matching
    ["a_softmax", "b_softmax", "entailment_scorer", "entailment_scorer",
     "timedist_knowledge_selector_1"]
    [Tensor.scalar 0, Tensor.scalar 1, Tensor.scalar 2, Tensor.scalar 3,
     Tensor.scalar 4] (by decide)
  rw [h]
  rfl

end MTFMN
